import Mathlib

/-!
Verification of the audioserve request-dispatch core against its sources.

The definitions below are a shallow embedding of:
  * src/src/services/mod.rs   (admission check, static routes, auth wrapping,
    CORS post-processing, collection-index resolution, route classification,
    Range header handling),
  * src/src/services/icon/mod.rs  (icon_response, scale_cover).

External crate behaviour (percent_encoding, std UTF-8 lossy decoding, the
image crate's resize contract) and repository modules that are not among the
given sources (services/subs.rs handlers, services/auth.rs, the icon cache
module, the transcoding slot manipulation) are modelled explicitly; each such
definition carries a comment saying what it stands for.
-/

namespace Audioserve

/-! ## UTF-8 and percent decoding

The service percent-decodes the raw request path with
`percent_decode(..).decode_utf8_lossy()` (external crates `percent_encoding`
and `std`).  We model both at the byte level: a Lean `String` is turned into
its UTF-8 bytes, percent escapes are decoded, and the byte list is decoded
back to characters with U+FFFD replacement for invalid sequences.
-/

/-- UTF-8 bytes of one character (standard encoding, by code-point range). -/
def charUtf8 (c : Char) : List Nat :=
  let n := c.toNat
  if n < 0x80 then [n]
  else if n < 0x800 then [0xC0 + n / 0x40, 0x80 + n % 0x40]
  else if n < 0x10000 then
    [0xE0 + n / 0x1000, 0x80 + (n / 0x40) % 0x40, 0x80 + n % 0x40]
  else
    [0xF0 + n / 0x40000, 0x80 + (n / 0x1000) % 0x40,
     0x80 + (n / 0x40) % 0x40, 0x80 + n % 0x40]

/-- Value of one hexadecimal digit, if the character is one. -/
def hexDigitVal (c : Char) : Option Nat :=
  if '0' ≤ c ∧ c ≤ '9' then some (c.toNat - 48)
  else if 'a' ≤ c ∧ c ≤ 'f' then some (c.toNat - 97 + 10)
  else if 'A' ≤ c ∧ c ≤ 'F' then some (c.toNat - 65 + 10)
  else none

/-- Percent-decoding to bytes, modelling `percent_encoding::percent_decode`:
a `%` followed by two hex digits becomes one byte, any other character
contributes its own UTF-8 bytes (a lone `%` passes through unchanged). -/
def pctBytes : List Char → List Nat
  | [] => []
  | '%' :: a :: b :: rest =>
    match hexDigitVal a, hexDigitVal b with
    | some hi, some lo => (16 * hi + lo) :: pctBytes rest
    | _, _ => charUtf8 '%' ++ pctBytes (a :: b :: rest)
  | c :: rest => charUtf8 c ++ pctBytes rest

/-- Unicode replacement character U+FFFD. -/
def replChar : Char := Char.ofNat 0xFFFD

/-- Whether a byte is a UTF-8 continuation byte. -/
def utf8Cont (b : Nat) : Bool := 0x80 ≤ b && b < 0xC0

/-- Decode one UTF-8 sequence starting at byte `b`, returning the character
(or U+FFFD) and how many further bytes were consumed from `rest`. -/
def utf8Step (b : Nat) (rest : List Nat) : Char × Nat :=
  if b < 0x80 then (Char.ofNat b, 0)
  else if 0xC2 ≤ b && b ≤ 0xDF then
    match rest with
    | b2 :: _ =>
      if utf8Cont b2 then (Char.ofNat ((b - 0xC0) * 0x40 + (b2 - 0x80)), 1)
      else (replChar, 0)
    | _ => (replChar, 0)
  else if 0xE0 ≤ b && b ≤ 0xEF then
    match rest with
    | b2 :: b3 :: _ =>
      let lo2 : Nat := if b == 0xE0 then 0xA0 else 0x80
      let hi2 : Nat := if b == 0xED then 0x9F else 0xBF
      if lo2 ≤ b2 && b2 ≤ hi2 && utf8Cont b3 then
        (Char.ofNat ((b - 0xE0) * 0x1000 + (b2 - 0x80) * 0x40 + (b3 - 0x80)), 2)
      else (replChar, 0)
    | _ => (replChar, 0)
  else if 0xF0 ≤ b && b ≤ 0xF4 then
    match rest with
    | b2 :: b3 :: b4 :: _ =>
      let lo2 : Nat := if b == 0xF0 then 0x90 else 0x80
      let hi2 : Nat := if b == 0xF4 then 0x8F else 0xBF
      if lo2 ≤ b2 && b2 ≤ hi2 && utf8Cont b3 && utf8Cont b4 then
        (Char.ofNat ((b - 0xF0) * 0x40000 + (b2 - 0x80) * 0x1000 +
          (b3 - 0x80) * 0x40 + (b4 - 0x80)), 3)
      else (replChar, 0)
    | _ => (replChar, 0)
  else (replChar, 0)

/-- Recursion worker for `utf8Lossy`; the fuel argument (initially the byte
count) makes the recursion structural, so concrete inputs evaluate. -/
def utf8LossyAux : Nat → List Nat → List Char
  | 0, _ => []
  | _, [] => []
  | fuel + 1, b :: rest =>
    let s := utf8Step b rest
    s.1 :: utf8LossyAux fuel (rest.drop s.2)

/-- Lossy UTF-8 decoding of a byte list (invalid bytes become U+FFFD),
modelling `String::from_utf8_lossy`. -/
def utf8Lossy (l : List Nat) : List Char :=
  utf8LossyAux l.length l

/-- Percent-decode a string and re-read it as lossy UTF-8; this is the
composition `percent_decode(path.as_bytes()).decode_utf8_lossy()` used in
`FileSendService::process_checked`. -/
def percentDecodeLossy (s : String) : String :=
  String.mk (utf8Lossy (pctBytes s.data))

/-! ## HTTP model -/

/-- Request method; only `Get` is ever inspected by the service. -/
inductive HttpMethod where
  | get
  | other (name : String)
deriving DecidableEq, Repr

/-- One byte range of a `Range: bytes=` header, as in
`hyper::header::ByteRangeSpec`: `from-to`, `from-`, or `-last`. -/
inductive ByteRangeSpec where
  | fromTo (first last : Nat)
  | allFrom (first : Nat)
  | lastBytes (n : Nat)
deriving DecidableEq, Repr

/-- Parsed `Range` header, as in `hyper::header::Range`: a list of byte
ranges, or a range in some unregistered non-bytes unit. -/
inductive RangeHeader where
  | bytes (ranges : List ByteRangeSpec)
  | unregistered (unit value : String)
deriving DecidableEq, Repr

/-- Inbound request, with the header fields and the pre-parsed query
parameters the service consumes.  `query = none` models a URL without a
query string; the `form_urlencoded` parsing of the query string itself is
external crate behaviour, so the parameter pairs are taken as given. -/
structure Request where
  method : HttpMethod
  path : String
  query : Option (List (String × String))
  range : Option RangeHeader
  origin : Option String
deriving DecidableEq, Repr

/-- Response as produced by the handlers in `services/subs.rs` (those
handlers build plain responses and never set CORS headers themselves). -/
structure PlainResponse where
  status : Nat
  body : String
deriving DecidableEq, Repr

/-- Response as observed by the client: status, body, and the two CORS
headers that `add_cors_headers` may add. -/
structure HttpResponse where
  status : Nat
  body : String
  corsAllowOrigin : Option String
  corsAllowCredentials : Bool
deriving DecidableEq, Repr

/-- Wrap a plain handler response: no CORS headers set. -/
def plainResp (r : PlainResponse) : HttpResponse :=
  { status := r.status, body := r.body
    corsAllowOrigin := none, corsAllowCredentials := false }

/-! ## Constants of services/mod.rs -/

def APP_STATIC_FILES_CACHE_AGE : Nat := 30 * 24 * 3600

def FOLDER_INFO_FILES_CACHE_AGE : Nat := 24 * 3600

def OVERLOADED_MESSAGE : String := "Overloaded, try later"

/-- Modelled from the spec: `NOT_FOUND_MESSAGE` is declared in
`services/subs.rs`, which is not among the given sources; the spec gives
404 ("Not Found") for unmatched routes and bad collection indexes. -/
def NOT_FOUND_MESSAGE : String := "Not Found"

/-- Server configuration fields consumed by the dispatch core
(`get_config()` in the source). `queue_size` is `pool_size.queue_size`. -/
structure Config where
  queue_size : Nat
  base_dirs : List String
  cors : Bool
  client_dir : String
deriving DecidableEq, Repr

/-! ## Collection-index pattern

The source matches the decoded path against the process-wide regular
expression `^/(\d+)/.+` (Rust `regex` crate, so `.` matches any character
except a newline) and, on a match, takes capture group 1 as the collection
number and keeps the path from the end of that capture (so the remainder
keeps its leading slash).  `parse::<usize>()` of the digits is modelled as
exact numeric value (overflow of the machine integer is not modelled). -/

/-- Whether the first list is an initial segment of the second; used to
model Rust `str::starts_with` (kernel-computable, unlike
`String.startsWith`). -/
def listStartsWith : List Char → List Char → Bool
  | [], _ => true
  | _ :: _, [] => false
  | a :: as, b :: bs => a == b && listStartsWith as bs

/-- Rust `str::starts_with` on strings. -/
def strStartsWith (s pre : String) : Bool :=
  listStartsWith pre.data s.data

/-- Whether a character is an ASCII digit. -/
def isDigitChar (c : Char) : Bool := '0' ≤ c && c ≤ '9'

/-- Whether a character is in the Unicode general category Nd (decimal
number): Rust regex `\d` is Unicode-aware and matches every Nd character,
not only the ASCII digits.  The ranges follow the Unicode Nd table used by
the regex crate. -/
def isNdChar (c : Char) : Bool :=
  let n := c.toNat
  isDigitChar c ||
  (0x660 ≤ n && n ≤ 0x669) || (0x6F0 ≤ n && n ≤ 0x6F9) ||
  (0x7C0 ≤ n && n ≤ 0x7C9) || (0x966 ≤ n && n ≤ 0x96F) ||
  (0x9E6 ≤ n && n ≤ 0x9EF) || (0xA66 ≤ n && n ≤ 0xA6F) ||
  (0xAE6 ≤ n && n ≤ 0xAEF) || (0xB66 ≤ n && n ≤ 0xB6F) ||
  (0xBE6 ≤ n && n ≤ 0xBEF) || (0xC66 ≤ n && n ≤ 0xC6F) ||
  (0xCE6 ≤ n && n ≤ 0xCEF) || (0xD66 ≤ n && n ≤ 0xD6F) ||
  (0xDE6 ≤ n && n ≤ 0xDEF) || (0xE50 ≤ n && n ≤ 0xE59) ||
  (0xED0 ≤ n && n ≤ 0xED9) || (0xF20 ≤ n && n ≤ 0xF29) ||
  (0x1040 ≤ n && n ≤ 0x1049) || (0x1090 ≤ n && n ≤ 0x1099) ||
  (0x17E0 ≤ n && n ≤ 0x17E9) || (0x1810 ≤ n && n ≤ 0x1819) ||
  (0x1946 ≤ n && n ≤ 0x194F) || (0x19D0 ≤ n && n ≤ 0x19D9) ||
  (0x1A80 ≤ n && n ≤ 0x1A89) || (0x1A90 ≤ n && n ≤ 0x1A99) ||
  (0x1B50 ≤ n && n ≤ 0x1B59) || (0x1BB0 ≤ n && n ≤ 0x1BB9) ||
  (0x1C40 ≤ n && n ≤ 0x1C49) || (0x1C50 ≤ n && n ≤ 0x1C59) ||
  (0xA620 ≤ n && n ≤ 0xA629) || (0xA8D0 ≤ n && n ≤ 0xA8D9) ||
  (0xA900 ≤ n && n ≤ 0xA909) || (0xA9D0 ≤ n && n ≤ 0xA9D9) ||
  (0xA9F0 ≤ n && n ≤ 0xA9F9) || (0xAA50 ≤ n && n ≤ 0xAA59) ||
  (0xABF0 ≤ n && n ≤ 0xABF9) || (0xFF10 ≤ n && n ≤ 0xFF19) ||
  (0x104A0 ≤ n && n ≤ 0x104A9) || (0x10D30 ≤ n && n ≤ 0x10D39) ||
  (0x11066 ≤ n && n ≤ 0x1106F) || (0x110F0 ≤ n && n ≤ 0x110F9) ||
  (0x11136 ≤ n && n ≤ 0x1113F) || (0x111D0 ≤ n && n ≤ 0x111D9) ||
  (0x112F0 ≤ n && n ≤ 0x112F9) || (0x11450 ≤ n && n ≤ 0x11459) ||
  (0x114D0 ≤ n && n ≤ 0x114D9) || (0x11650 ≤ n && n ≤ 0x11659) ||
  (0x116C0 ≤ n && n ≤ 0x116C9) || (0x11730 ≤ n && n ≤ 0x11739) ||
  (0x118E0 ≤ n && n ≤ 0x118E9) || (0x11950 ≤ n && n ≤ 0x11959) ||
  (0x11C50 ≤ n && n ≤ 0x11C59) || (0x11D50 ≤ n && n ≤ 0x11D59) ||
  (0x11DA0 ≤ n && n ≤ 0x11DA9) || (0x16A60 ≤ n && n ≤ 0x16A69) ||
  (0x16AC0 ≤ n && n ≤ 0x16AC9) || (0x16B50 ≤ n && n ≤ 0x16B59) ||
  (0x1D7CE ≤ n && n ≤ 0x1D7FF) || (0x1E140 ≤ n && n ≤ 0x1E149) ||
  (0x1E2F0 ≤ n && n ≤ 0x1E2F9) || (0x1E4F0 ≤ n && n ≤ 0x1E4F9) ||
  (0x1E950 ≤ n && n ≤ 0x1E959) || (0x1FBF0 ≤ n && n ≤ 0x1FBF9)

/-- Numeric value of an ASCII digit string. -/
def digitsToNat (ds : List Char) : Nat :=
  ds.foldl (fun a c => 10 * a + (c.toNat - 48)) 0

/-- Match of `^/(\d+)/.+` against a path (regex crate semantics: `\d` is
any Nd character, `.` any character but a newline): on success, the capture
group's characters and the remaining path starting at the second slash (the
source slices the path from the end of capture group 1). -/
def collectionCapture (p : String) : Option (List Char × String) :=
  match p.data with
  | [] => none
  | c0 :: rest =>
    if c0 = '/' then
      match rest.dropWhile isNdChar with
      | c1 :: c :: tail =>
        if c1 = '/' ∧ rest.takeWhile isNdChar ≠ [] ∧ c ≠ '\n' then
          some (rest.takeWhile isNdChar, String.mk (c1 :: c :: tail))
        else none
      | _ => none
    else none

/-- Largest value of a 64-bit `usize`. -/
def USIZE_MAX : Nat := 2 ^ 64 - 1

/-- Rust `str::parse::<usize>()` on the captured digit run: it succeeds
only on ASCII digit strings whose value fits in `usize`; a non-ASCII Nd
digit or an overflowing run makes it fail (and the source's `.unwrap()`
then panics). -/
def parseUsize (ds : List Char) : Option Nat :=
  if ds.all isDigitChar = true ∧ digitsToNat ds ≤ USIZE_MAX then
    some (digitsToNat ds)
  else none

/-- Successful collection-index extraction: regex match followed by a
successful `usize` parse of the capture. -/
def collectionMatch (p : String) : Option (Nat × String) :=
  match collectionCapture p with
  | some x =>
    match parseUsize x.1 with
    | some n => some (n, x.2)
    | none => none
  | none => none

/-! ## Route dispatch -/

/-- A call into one of the handlers of `services/subs.rs` (not among the
given sources), recorded with the arguments the dispatcher passes.  For
`send_file` the `seek` and `trans` query parameters are recorded as the raw
strings the source hands to `str::parse::<f32>` and
`QualityLevel::from_letter` (both outside the given sources). -/
inductive HandlerCall where
  | sendFileSimple (baseDir : String) (file : String) (cacheAge : Option Nat)
  | collectionsList
  | transcodingsList
  | sendFile (baseDir : String) (sub : String) (range : Option ByteRangeSpec)
      (seekRaw : Option String) (transRaw : Option String)
  | getFolder (baseDir : String) (sub : String)
  | searchCol (baseDir : String) (q : String)
deriving DecidableEq, Repr

/-- Outcome of `FileSendService::process_checked`: a short response built
with `short_response_boxed`, delegation to a subs handler, or a thread
panic — `parse::<usize>().unwrap()` on the captured digit run panics when
the capture contains a non-ASCII Nd digit or overflows `usize`. -/
inductive PResult where
  | short (status : Nat) (message : String)
  | handler (h : HandlerCall)
  | panicked
deriving DecidableEq, Repr

/-- Last-wins lookup in the query parameter list, modelling
`collect::<HashMap<_,_>>()` over the parsed pairs followed by `remove`. -/
def lookupLast (l : List (String × String)) (k : String) : Option String :=
  l.foldl (fun acc p => if p.1 = k then some p.2 else acc) none

/-- Modelled after `get_subpath` (which strips a checked path component
pattern with `Path::strip_prefix`): drop the matched characters, then any
leading slashes, so the result is relative as in the source.  Component
normalisation beyond that (collapsing of repeated inner slashes) is Rust
`Path` behaviour and is not modelled. -/
def getSubpath (path pre : String) : String :=
  String.mk ((path.data.drop pre.length).dropWhile (· = '/'))

/-- Route classification performed in the body of `process_checked` after
the collection index has been resolved (source lines 166-235): `base_dir`
is `base_dirs[colllection_index]`, `path` the (possibly stripped) decoded
path, `params` the parsed query, `range` the parsed `Range` header. -/
def routeResolved (base_dir : String) (path : String)
    (params : Option (List (String × String)))
    (range : Option RangeHeader) : PResult :=
  if strStartsWith path "/audio/" then
    let seekRaw := params.bind (fun p => lookupLast p "seek")
    let transRaw := params.bind (fun p => lookupLast p "trans")
    match range with
    | some (RangeHeader.bytes ranges) =>
      match ranges with
      | [] => PResult.short 400 "One range is required"
      | [r] => PResult.handler (HandlerCall.sendFile base_dir
          (getSubpath path "/audio/") (some r) seekRaw transRaw)
      | _ :: _ :: _ => PResult.short 501 "Do not support muptiple ranges"
    | some (RangeHeader.unregistered _ _) =>
      PResult.short 501 "Other then bytes ranges are not supported"
    | none => PResult.handler (HandlerCall.sendFile base_dir
        (getSubpath path "/audio/") none seekRaw transRaw)
  else if strStartsWith path "/folder/" then
    PResult.handler (HandlerCall.getFolder base_dir (getSubpath path "/folder/"))
  else if path = "/search" then
    match params.bind (fun p => lookupLast p "q") with
    | some q => PResult.handler (HandlerCall.searchCol base_dir q)
    | none => PResult.short 404 NOT_FOUND_MESSAGE
  else if strStartsWith path "/cover/" then
    PResult.handler (HandlerCall.sendFileSimple base_dir
      (getSubpath path "/cover") (some FOLDER_INFO_FILES_CACHE_AGE))
  else if strStartsWith path "/desc/" then
    PResult.handler (HandlerCall.sendFileSimple base_dir
      (getSubpath path "/desc") (some FOLDER_INFO_FILES_CACHE_AGE))
  else PResult.short 404 NOT_FOUND_MESSAGE

/-- Embedding of `FileSendService::process_checked`.  Note that in the
source the `/collections` and `/transcodings` checks are applied to the
decoded path before the collection number pattern is tried, and that the
`Method::Get` match surrounds everything else. -/
def process_checked (cfg : Config) (req : Request) : PResult :=
  match req.method with
  | HttpMethod.get =>
    let path := percentDecodeLossy req.path
    if strStartsWith path "/collections" then
      PResult.handler HandlerCall.collectionsList
    else if strStartsWith path "/transcodings" then
      PResult.handler HandlerCall.transcodingsList
    else
      match collectionCapture path with
      | some (ds, stripped) =>
        match parseUsize ds with
        | none => PResult.panicked
        | some cnum =>
          if cfg.base_dirs.length ≤ cnum then
            PResult.short 404 NOT_FOUND_MESSAGE
          else
            routeResolved (cfg.base_dirs.getD cnum "") stripped req.query
              req.range
      | none =>
        routeResolved (cfg.base_dirs.getD 0 "") path req.query req.range
  | _ => PResult.short 405 "Method not supported"

/-! ## The service entry point `FileSendService::call` -/

/-- Embedding of `add_cors_headers`: when enabled and an `Origin` header was
present, echo it as `Access-Control-Allow-Origin` and set
`Access-Control-Allow-Credentials`; otherwise return the response
untouched. -/
def add_cors_headers (resp : HttpResponse) (origin : Option String)
    (enabled : Bool) : HttpResponse :=
  if !enabled then resp
  else
    match origin with
    | some o => { resp with corsAllowOrigin := some o, corsAllowCredentials := true }
    | none => resp

/-- Modelled from the spec: result of the pluggable authenticator
(`services/auth.rs` is not among the given sources) — either the request to
continue with, or a terminal response returned unchanged.  Credentials are
`()` in the source and are omitted. -/
inductive AuthResult where
  | ok (req : Request)
  | denied (resp : PlainResponse)

/-- Runtime surroundings of one `call`: the worker pool's current queue
size, the optional authenticator, and the responses the handlers of
`services/subs.rs` (not among the given sources) would produce for each
delegated call.  Handler responses are plain: those handlers never set CORS
headers. -/
structure CallEnv where
  queueSize : Nat
  authenticator : Option (Request → AuthResult)
  render : HandlerCall → PlainResponse

/-- Marker standing for a request torn down by a thread panic: the real
service produces no response at all in that case (the panic unwinds out of
the handler and hyper drops the connection).  The marker only keeps the
call-level model total; panic behaviour itself is specified exactly at the
`process_checked` level through `PResult.panicked`. -/
def PANIC_MARKER : PlainResponse := { status := 500, body := "thread panicked" }

/-- Response of a `process_checked` outcome, with short responses rendered
as built by `short_response_boxed` and handler calls rendered by the
environment. -/
def renderPResult (env : CallEnv) : PResult → PlainResponse
  | PResult.short status message => { status := status, body := message }
  | PResult.handler h => env.render h
  | PResult.panicked => PANIC_MARKER

/-- Body of `FileSendService::call` after the admission check has passed
(everything from the static-file checks on). -/
def call_admitted (cfg : Config) (env : CallEnv) (req : Request) : HttpResponse :=
  if req.path = "/" then
    plainResp (env.render (HandlerCall.sendFileSimple cfg.client_dir
      "index.html" (some APP_STATIC_FILES_CACHE_AGE)))
  else if req.path = "/bundle.js" then
    plainResp (env.render (HandlerCall.sendFileSimple cfg.client_dir
      "bundle.js" (some APP_STATIC_FILES_CACHE_AGE)))
  else
    let origin := req.origin
    let inner : PlainResponse :=
      match env.authenticator with
      | some auth =>
        match auth req with
        | AuthResult.ok req2 => renderPResult env (process_checked cfg req2)
        | AuthResult.denied resp => resp
      | none => renderPResult env (process_checked cfg req)
    add_cors_headers (plainResp inner) origin cfg.cors

/-- Embedding of `FileSendService::call`: refuse with 503 when the worker
pool queue exceeds the configured limit, then serve the two static paths,
then authenticate and dispatch, adding CORS headers to the auth/dispatch
result. -/
def call (cfg : Config) (env : CallEnv) (req : Request) : HttpResponse :=
  if cfg.queue_size < env.queueSize then
    plainResp { status := 503, body := OVERLOADED_MESSAGE }
  else
    call_admitted cfg env req

/-! ## Icon cache and scaler (src/src/services/icon/mod.rs)

`scale_cover` and `icon_response` call into the external `image` crate and
into the repository's icon cache module (`services/icon/cache.rs`, not among
the given sources).  Those collaborators are modelled as an explicit
environment; the control flow of the two functions themselves is translated
from the source.
-/

/-- Configuration slice `get_config().icons`. -/
structure IconsConfig where
  cache_disabled : Bool
  size : Nat
  fast_scaling : Bool
deriving DecidableEq, Repr

/-- Resampling filters of `image::imageops::FilterType` used by the
source. -/
inductive FilterType where
  | lanczos3
  | triangle
deriving DecidableEq, Repr

/-- Decoded image: dimensions plus abstract pixel content. -/
structure Image where
  width : Nat
  height : Nat
  pix : List Nat
deriving DecidableEq, Repr

/-- Nearest-integer division (round half up), used by the resize-dimension
computation. -/
def roundDiv (a b : Nat) : Nat := (2 * a + b) / (2 * b)

/-- Modelled from the spec and the `image` crate's documented contract for
`DynamicImage::resize`: the output dimensions are the largest ones that
preserve the aspect ratio and fit within the `nwidth × nheight` bounds
(each at least 1). -/
def resize_dimensions (w h nw nh : Nat) : Nat × Nat :=
  if nw * h ≤ nh * w then
    (max (roundDiv (nw * w) w) 1, max (roundDiv (nw * h) w) 1)
  else
    (max (roundDiv (nh * w) h) 1, max (roundDiv (nh * h) h) 1)

/-- External collaborators of the icon scaler: opening/decoding the source
image (`ImageReader::open(..)?.decode()?`), resampling pixel content, and
PNG encode/decode.  A `Reader` handle is abstracted to a `Nat`. -/
structure ImgEnv where
  imageOpen : String → Except String Nat
  decode : Nat → Except String Image
  resample : FilterType → Image → Nat → Nat → List Nat
  pngEncode : Image → Except String (List Nat)
  pngDecode : List Nat → Option Image

/-- Resize per the `image` crate contract: dimensions from
`resize_dimensions`, pixel content produced by the environment's resampler
with the selected filter. -/
def envResize (env : ImgEnv) (img : Image) (nw nh : Nat)
    (filter : FilterType) : Image :=
  let d := resize_dimensions img.width img.height nw nh
  { width := d.1, height := d.2, pix := env.resample filter img d.1 d.2 }

/-- Embedding of `scale_cover`: open and decode the image at `path`, resize
it to fit the configured square size with Lanczos3 (quality) unless fast
scaling is configured (then Triangle), and PNG-encode the result; every
error propagates. -/
def scale_cover (env : ImgEnv) (cfg : IconsConfig) (path : String) :
    Except String (List Nat) := do
  let r ← env.imageOpen path
  let img ← env.decode r
  let sz := cfg.size
  let scaled := envResize env img sz sz
    (if !cfg.fast_scaling then FilterType.lanczos3 else FilterType.triangle)
  env.pngEncode scaled

/-- Environment of `icon_response`: the image environment, the icons
configuration, and the icon cache module (`services/icon/cache.rs`, not
among the given sources).  Modelled from the spec: `cached_icon` returns a
readable handle on a cache hit (`none` on a miss); reading that handle
(`read_to_end`) yields the bytes or an I/O error; `cache_icon` writes the
freshly scaled bytes and may fail. -/
structure IconEnv where
  img : ImgEnv
  cfg : IconsConfig
  cached_icon : String → Option (Except String (List Nat))
  cache_icon : String → List Nat → Except String Unit

/-- Successful icon response: status, typed `Content-Length` and
`Content-Type: image/png` headers, and the body bytes. -/
structure IconHttpResponse where
  status : Nat
  contentLength : Nat
  contentTypePng : Bool
  body : List Nat
deriving DecidableEq, Repr

/-- Build the 200 response of `icon_response` for the given bytes. -/
def iconOk (data : List Nat) : IconHttpResponse :=
  { status := 200, contentLength := data.length, contentTypePng := true
    body := data }

/-- Observable outcome of `icon_response`: the returned result and, as
instrumentation of the side effect, the `cache_icon` call (argument bytes
and its ignored result) when one was made. -/
structure IconOutcome where
  result : Except String IconHttpResponse
  cacheWrite : Option (List Nat × Except String Unit)

/-- Embedding of `icon_response`: with caching enabled, try the cache and
return a hit's bytes (a failing read propagates its error); on a miss or
with caching disabled, scale the cover, and with caching enabled write the
result to the cache, ignoring (only logging) a write failure. -/
def icon_response (env : IconEnv) (path : String) : IconOutcome :=
  match (if !env.cfg.cache_disabled then env.cached_icon path else none) with
  | some readResult =>
    match readResult with
    | Except.ok data => { result := Except.ok (iconOk data), cacheWrite := none }
    | Except.error e => { result := Except.error e, cacheWrite := none }
  | none =>
    match scale_cover env.img env.cfg path with
    | Except.ok data =>
      { result := Except.ok (iconOk data)
        cacheWrite :=
          if !env.cfg.cache_disabled then some (data, env.cache_icon path data)
          else none }
    | Except.error e => { result := Except.error e, cacheWrite := none }

/-! ## Transcoding slot counter

Modelled from the spec: the counter manipulation lives in
`services/subs.rs` / `services/transcode.rs`, which are not among the given
sources; `services/mod.rs` only declares the shared state
(`TranscodingDetails`: an `Arc<AtomicUsize>` counter plus
`max_transcodings`).  Per spec §4.4/§5, starting a transcode atomically
check-and-increments the counter against `max_transcodings` (failing
gracefully when full, without incrementing), and the slot is released
exactly once on every exit path — success, error, or client cancellation.
Concurrency is modelled as interleaved atomic counter events. -/
inductive TEvent where
  | acquire
  | release
deriving DecidableEq, Repr

/-- Net counter effect of one event. -/
def tEventDelta : TEvent → Int
  | TEvent.acquire => 1
  | TEvent.release => -1

/-- Number of acquire events in a trace. -/
def countAcquire (tr : List TEvent) : Nat :=
  tr.countP (fun e => e = TEvent.acquire)

/-- Number of release events in a trace. -/
def countRelease (tr : List TEvent) : Nat :=
  tr.countP (fun e => e = TEvent.release)

/-- Legal evolutions of the transcoding slot counter under interleaved
requests: an acquire only happens via the guarded check-and-increment (so
only when the counter is below `maxT`), and a release only happens for a
previously acquired slot (so only when the counter is positive). -/
inductive Steps (maxT : Nat) : Nat → List TEvent → Nat → Prop
  | nil (c : Nat) : Steps maxT c [] c
  | acquire {c c' : Nat} {tr : List TEvent} (hlt : c < maxT)
      (htr : Steps maxT (c + 1) tr c') : Steps maxT c (TEvent.acquire :: tr) c'
  | release {c c' : Nat} {tr : List TEvent} (hpos : 0 < c)
      (htr : Steps maxT (c - 1) tr c') : Steps maxT c (TEvent.release :: tr) c'

/-! ## Helper lemmas -/

theorem add_cors_headers_fields (resp : HttpResponse) (origin : Option String)
    (enabled : Bool) :
    (add_cors_headers resp origin enabled).status = resp.status ∧
    (add_cors_headers resp origin enabled).body = resp.body := by
  unfold add_cors_headers
  split
  · exact ⟨rfl, rfl⟩
  · cases origin <;> exact ⟨rfl, rfl⟩

theorem add_cors_headers_off (resp : HttpResponse) (origin : Option String) :
    add_cors_headers resp origin false = resp := rfl

theorem listStartsWith_cons {a : Char} {as l : List Char}
    (h : listStartsWith (a :: as) l = true) :
    ∃ t, l = a :: t ∧ listStartsWith as t = true := by
  cases l with
  | nil => simp [listStartsWith] at h
  | cons b bs =>
    simp only [listStartsWith, Bool.and_eq_true, beq_iff_eq] at h
    exact ⟨bs, by rw [h.1], h.2⟩

theorem strStartsWith_data {p : String} {pre : String}
    (h : strStartsWith p pre = true) :
    listStartsWith pre.data p.data = true := h

/-- A run of characters satisfying a predicate that maps `/` to `false`,
followed by a slash, splits cleanly under `takeWhile`/`dropWhile`. -/
theorem all_slash_split (pr : Char → Bool) (ds xs : List Char)
    (hsl : pr '/' = false) :
    ds.all pr = true →
    (ds ++ '/' :: xs).takeWhile pr = ds ∧
    (ds ++ '/' :: xs).dropWhile pr = '/' :: xs := by
  induction ds with
  | nil =>
    intro _
    constructor <;> simp [List.takeWhile_cons, List.dropWhile_cons, hsl]
  | cons d dt ih =>
    intro hdig
    simp only [List.all_cons, Bool.and_eq_true] at hdig
    obtain ⟨ihl, ihr⟩ := ih hdig.2
    constructor
    · simp [List.takeWhile_cons, hdig.1, ihl]
    · simp [List.dropWhile_cons, hdig.1, ihr]

/-- An ASCII digit is in particular an Nd digit. -/
theorem all_digit_nd {ds : List Char} (h : ds.all isDigitChar = true) :
    ds.all isNdChar = true := by
  induction ds with
  | nil => rfl
  | cons d dt ih =>
    simp only [List.all_cons, Bool.and_eq_true] at h ⊢
    exact ⟨by simp [isNdChar, h.1], ih h.2⟩

/-- What a successful `usize` parse of the capture guarantees. -/
theorem parseUsize_ok {ds : List Char} {n : Nat} (h : parseUsize ds = some n) :
    ds.all isDigitChar = true ∧ digitsToNat ds ≤ USIZE_MAX ∧
    n = digitsToNat ds := by
  unfold parseUsize at h
  split at h
  · rename_i hcond
    injection h with h'
    exact ⟨hcond.1, hcond.2, h'.symm⟩
  · exact absurd h (by simp)

/-- Shape of a successful regex capture: the path is the slash, the
captured (nonempty) run, a second slash and at least one more character,
and the remainder keeps the second slash. -/
theorem collectionCapture_shape {p : String} {ds : List Char} {rest : String}
    (h : collectionCapture p = some (ds, rest)) :
    ds ≠ [] ∧ ∃ c tl, p.data = '/' :: (ds ++ '/' :: c :: tl) ∧
      rest.data = '/' :: c :: tl := by
  unfold collectionCapture at h
  split at h
  · exact absurd h (by simp)
  · rename_i c0 r hd
    split at h
    · rename_i h0
      split at h
      · rename_i c1 c tail hdw
        split at h
        · rename_i hcond
          obtain ⟨hc1, htne, _⟩ := hcond
          injection h with h'
          obtain ⟨hds, h2⟩ := Prod.mk.injEq .. ▸ h'
          have hr : r = r.takeWhile isNdChar ++ (c1 :: c :: tail) := by
            conv_lhs =>
              rw [← List.takeWhile_append_dropWhile (p := isNdChar) (l := r)]
            rw [hdw]
          refine ⟨by rw [← hds]; exact htne, c, tail, ?_, ?_⟩
          · rw [hd, h0, hr, hds, hc1]
          · rw [← h2, hc1]
        · exact absurd h (by simp)
      · exact absurd h (by simp)
    · exact absurd h (by simp)

/-- Unfold a successful `collectionMatch` into its capture and parse. -/
theorem collectionMatch_unpack {p : String} {n : Nat} {rest : String}
    (h : collectionMatch p = some (n, rest)) :
    ∃ ds, collectionCapture p = some (ds, rest) ∧ parseUsize ds = some n := by
  unfold collectionMatch at h
  split at h
  · rename_i x hcap
    split at h
    · rename_i m hpar
      injection h with h'
      obtain ⟨h1, h2⟩ := Prod.mk.injEq .. ▸ h'
      exact ⟨x.1, by rw [hcap, ← h2], by rw [hpar, h1]⟩
    · exact absurd h (by simp)
  · exact absurd h (by simp)

/-- A path that the collection pattern matched and parsed starts with a
slash followed by an ASCII digit, and the returned remainder starts with a
slash. -/
theorem collectionMatch_shape {p : String} {n : Nat} {rest : String}
    (h : collectionMatch p = some (n, rest)) :
    ∃ d t, p.data = '/' :: d :: t ∧ isDigitChar d = true ∧
      ∃ c tl, rest.data = '/' :: c :: tl := by
  obtain ⟨ds, hcap, hpar⟩ := collectionMatch_unpack h
  obtain ⟨hne, c, tl, hpd, hrd⟩ := collectionCapture_shape hcap
  obtain ⟨hall, _, _⟩ := parseUsize_ok hpar
  cases ds with
  | nil => exact absurd rfl hne
  | cons d dt =>
    simp only [List.all_cons, Bool.and_eq_true] at hall
    refine ⟨d, dt ++ '/' :: c :: tl, ?_, hall.1, c, tl, hrd⟩
    rw [hpd]
    simp

/-- On fully matched input the regex capture succeeds and strips the
`/<digits>` head, keeping the second slash. -/
theorem collectionCapture_eq_some (ds : List Char) (c : Char) (tail : List Char)
    (hne : ds ≠ []) (hnd : ds.all isNdChar = true) (hc : c ≠ '\n') :
    collectionCapture (String.mk ('/' :: ds ++ '/' :: c :: tail)) =
      some (ds, String.mk ('/' :: c :: tail)) := by
  obtain ⟨htw, hdw⟩ := all_slash_split isNdChar ds (c :: tail) (by decide) hnd
  unfold collectionCapture
  simp only [List.cons_append]
  rw [hdw]
  simp [htw, hne, hc]

/-- On an ASCII digit run whose value fits in `usize`, the collection
index extraction succeeds with the digits' value. -/
theorem collectionMatch_eq_some (ds : List Char) (c : Char) (tail : List Char)
    (hne : ds ≠ []) (hdig : ds.all isDigitChar = true) (hc : c ≠ '\n')
    (hbound : digitsToNat ds ≤ USIZE_MAX) :
    collectionMatch (String.mk ('/' :: ds ++ '/' :: c :: tail)) =
      some (digitsToNat ds, String.mk ('/' :: c :: tail)) := by
  unfold collectionMatch
  rw [collectionCapture_eq_some ds c tail hne (all_digit_nd hdig) hc]
  simp [parseUsize, hdig, hbound]

/-- Paths whose second character is not an Nd digit never match the
collection pattern. -/
theorem collectionCapture_none {p : String} {c0 c1 : Char} {t : List Char}
    (hd : p.data = c0 :: c1 :: t) (h1 : isNdChar c1 = false) :
    collectionCapture p = none := by
  have htw : (c1 :: t).takeWhile isNdChar = [] := by
    simp [List.takeWhile_cons, h1]
  have hdw : (c1 :: t).dropWhile isNdChar = c1 :: t := by
    simp [List.dropWhile_cons, h1]
  unfold collectionCapture
  rw [hd]
  cases t with
  | nil => simp [hdw, htw]
  | cons c tl => simp [hdw, htw]

theorem listStartsWith_second_false (c1 c2 : Char) (cs : List Char)
    (d1 d2 : Char) (ds : List Char) (h : (c2 == d2) = false) :
    listStartsWith (c1 :: c2 :: cs) (d1 :: d2 :: ds) = false := by
  simp [listStartsWith, h]

theorem listStartsWith_fourth_false (c1 c2 c3 c4 : Char) (cs : List Char)
    (d1 d2 d3 d4 : Char) (ds : List Char) (h : (c4 == d4) = false) :
    listStartsWith (c1 :: c2 :: c3 :: c4 :: cs) (d1 :: d2 :: d3 :: d4 :: ds) =
      false := by
  simp [listStartsWith, h]

theorem beq_digit_false (c : Char) {d : Char} (h : isDigitChar d = true)
    (hc : isDigitChar c = false) : (c == d) = false := by
  cases hbe : (c == d) with
  | false => rfl
  | true =>
    have he : c = d := (beq_iff_eq ..).mp hbe
    rw [← he, hc] at h
    exact absurd h (by simp)

/-- Factored form of `process_checked` for GET requests whose decoded path
triggers neither of the two pre-strip info routes. -/
theorem process_checked_get (cfg : Config) (req : Request) (p : String)
    (hm : req.method = HttpMethod.get) (hp : percentDecodeLossy req.path = p)
    (hc : strStartsWith p "/collections" = false)
    (ht : strStartsWith p "/transcodings" = false) :
    process_checked cfg req =
      (match collectionCapture p with
       | some x =>
         match parseUsize x.1 with
         | none => PResult.panicked
         | some cnum =>
           if cfg.base_dirs.length ≤ cnum then
             PResult.short 404 NOT_FOUND_MESSAGE
           else routeResolved (cfg.base_dirs.getD cnum "") x.2 req.query
             req.range
       | none => routeResolved (cfg.base_dirs.getD 0 "") p req.query req.range) := by
  simp only [process_checked, hm, hp, hc, ht, Bool.false_eq_true, if_false]
  cases collectionCapture p with
  | none => rfl
  | some x => cases parseUsize x.1 <;> rfl

/-- A route path beginning with `/collections` matches none of the
post-strip route cases and falls through to 404. -/
theorem routeResolved_collections_404 (base p : String)
    (params : Option (List (String × String))) (range : Option RangeHeader)
    (h : strStartsWith p "/collections" = true) :
    routeResolved base p params range = PResult.short 404 NOT_FOUND_MESSAGE := by
  obtain ⟨t1, h1, h1'⟩ := listStartsWith_cons h
  obtain ⟨t2, h2, h2'⟩ := listStartsWith_cons h1'
  obtain ⟨t3, h3, h3'⟩ := listStartsWith_cons h2'
  obtain ⟨t4, h4, _⟩ := listStartsWith_cons h3'
  have hdata : p.data = '/' :: 'c' :: 'o' :: 'l' :: t4 := by rw [h1, h2, h3, h4]
  have hau : strStartsWith p "/audio/" = false := by
    unfold strStartsWith
    rw [hdata]
    exact listStartsWith_second_false _ _ _ _ _ _ (by decide)
  have hfo : strStartsWith p "/folder/" = false := by
    unfold strStartsWith
    rw [hdata]
    exact listStartsWith_second_false _ _ _ _ _ _ (by decide)
  have hse : p ≠ "/search" := by
    intro he
    rw [he] at hdata
    have h2 := hdata
    injection h2 with _ h3'
    injection h3' with h4 _
    exact absurd h4 (by decide)
  have hco : strStartsWith p "/cover/" = false := by
    unfold strStartsWith
    rw [hdata]
    exact listStartsWith_fourth_false _ _ _ _ _ _ _ _ _ _ (by decide)
  have hde : strStartsWith p "/desc/" = false := by
    unfold strStartsWith
    rw [hdata]
    exact listStartsWith_second_false _ _ _ _ _ _ (by decide)
  simp [routeResolved, hau, hfo, hse, hco, hde]

/-- A route path beginning with `/transcodings` likewise falls through to
404 after stripping. -/
theorem routeResolved_transcodings_404 (base p : String)
    (params : Option (List (String × String))) (range : Option RangeHeader)
    (h : strStartsWith p "/transcodings" = true) :
    routeResolved base p params range = PResult.short 404 NOT_FOUND_MESSAGE := by
  obtain ⟨t1, h1, h1'⟩ := listStartsWith_cons h
  obtain ⟨t2, h2, _⟩ := listStartsWith_cons h1'
  have hdata : p.data = '/' :: 't' :: t2 := by rw [h1, h2]
  have hau : strStartsWith p "/audio/" = false := by
    unfold strStartsWith
    rw [hdata]
    exact listStartsWith_second_false _ _ _ _ _ _ (by decide)
  have hfo : strStartsWith p "/folder/" = false := by
    unfold strStartsWith
    rw [hdata]
    exact listStartsWith_second_false _ _ _ _ _ _ (by decide)
  have hse : p ≠ "/search" := by
    intro he
    rw [he] at hdata
    have h2' := hdata
    injection h2' with _ h3'
    injection h3' with h4 _
    exact absurd h4 (by decide)
  have hco : strStartsWith p "/cover/" = false := by
    unfold strStartsWith
    rw [hdata]
    exact listStartsWith_second_false _ _ _ _ _ _ (by decide)
  have hde : strStartsWith p "/desc/" = false := by
    unfold strStartsWith
    rw [hdata]
    exact listStartsWith_second_false _ _ _ _ _ _ (by decide)
  simp [routeResolved, hau, hfo, hse, hco, hde]

/-- A matched collection path (slash, digit, ...) never triggers the
pre-strip `/collections` / `/transcodings` checks. -/
theorem matched_path_no_info_route {p : String} {n : Nat} {rest : String}
    (h : collectionMatch p = some (n, rest)) :
    strStartsWith p "/collections" = false ∧
    strStartsWith p "/transcodings" = false := by
  obtain ⟨d, t, hdata, hdig, _⟩ := collectionMatch_shape h
  constructor
  · unfold strStartsWith
    rw [hdata]
    exact listStartsWith_second_false _ _ _ _ _ _
      (beq_digit_false 'c' hdig (by decide))
  · unfold strStartsWith
    rw [hdata]
    exact listStartsWith_second_false _ _ _ _ _ _
      (beq_digit_false 't' hdig (by decide))

/-- Reduction of `process_checked` when the collection index extraction
succeeds (the pre-strip info checks cannot fire on such a path). -/
theorem process_checked_match (cfg : Config) (req : Request) (p : String)
    (n : Nat) (rest : String)
    (hm : req.method = HttpMethod.get) (hp : percentDecodeLossy req.path = p)
    (hsome : collectionMatch p = some (n, rest)) :
    process_checked cfg req =
      if cfg.base_dirs.length ≤ n then PResult.short 404 NOT_FOUND_MESSAGE
      else routeResolved (cfg.base_dirs.getD n "") rest req.query req.range := by
  obtain ⟨hc, ht⟩ := matched_path_no_info_route hsome
  obtain ⟨ds, hcap, hpar⟩ := collectionMatch_unpack hsome
  rw [process_checked_get cfg req p hm hp hc ht, hcap]
  simp [hpar]

/-- Reduction of `process_checked` when the regex does not match at all. -/
theorem process_checked_nomatch (cfg : Config) (req : Request) (p : String)
    (hm : req.method = HttpMethod.get) (hp : percentDecodeLossy req.path = p)
    (hc : strStartsWith p "/collections" = false)
    (ht : strStartsWith p "/transcodings" = false)
    (hcap : collectionCapture p = none) :
    process_checked cfg req =
      routeResolved (cfg.base_dirs.getD 0 "") p req.query req.range := by
  rw [process_checked_get cfg req p hm hp hc ht, hcap]

/-! ## Concrete fixtures used by witnesses and counterexamples -/

/-- Three-collection configuration with CORS enabled. -/
def cfg3 : Config :=
  { queue_size := 10, base_dirs := ["dirA", "dirB", "dirC"], cors := true
    client_dir := "client" }

/-- One-collection configuration with CORS disabled. -/
def cfg1 : Config :=
  { queue_size := 2, base_dirs := ["dirA"], cors := false, client_dir := "client" }

/-- Environment without authenticator whose handlers answer 200 "ok". -/
def envOk : CallEnv :=
  { queueSize := 0, authenticator := none
    render := fun _ => { status := 200, body := "ok" } }

/-- Same handlers, but a queue deeper than any fixture's limit. -/
def envBusy : CallEnv :=
  { queueSize := 11, authenticator := none
    render := fun _ => { status := 200, body := "ok" } }

/-! ## C3: overload admission control -/

/-- C3: for every request, when the worker pool queue size exceeds the
configured limit the service answers 503 "Overloaded, try later" at once —
the response does not depend on the authenticator or any handler, so no
downstream processing can be observed — and when the queue size is within
the limit, dispatch proceeds with the admitted-path body of `call`. -/
theorem overload_rejection (cfg : Config) (env env' : CallEnv) (req : Request) :
    (cfg.queue_size < env.queueSize →
      call cfg env req = plainResp { status := 503, body := OVERLOADED_MESSAGE } ∧
      (env'.queueSize = env.queueSize → call cfg env' req = call cfg env req)) ∧
    (env.queueSize ≤ cfg.queue_size →
      call cfg env req = call_admitted cfg env req) := by
  constructor
  · intro h
    constructor
    · simp [call, h]
    · intro he
      simp [call, he, h]
  · intro h
    simp [call, Nat.not_lt.mpr h]

/-- C3 witness: with limit 10 and queue 11 the busy environment gets the
503 overload response; with queue 0 the request is dispatched normally. -/
theorem overload_rejection_witness :
    call cfg3 envBusy
        { method := HttpMethod.get, path := "/collections", query := none
          range := none, origin := none } =
      plainResp { status := 503, body := OVERLOADED_MESSAGE } ∧
    call cfg3 envOk
        { method := HttpMethod.get, path := "/collections", query := none
          range := none, origin := none } =
      call_admitted cfg3 envOk
        { method := HttpMethod.get, path := "/collections", query := none
          range := none, origin := none } :=
  ⟨((overload_rejection cfg3 envBusy envBusy _).1 (by decide)).1,
   (overload_rejection cfg3 envOk envOk _).2 (by decide)⟩

/-! ## C1: CORS post-processing -/

/-- C1 counterexample: CORS is enabled and the request carries an Origin
header, yet the response for the static path `/` (served before the CORS
post-processing is attached) has no CORS headers, contradicting the claim
that every handled response carries them. -/
theorem cors_uniform_counterexample :
    (call cfg3 envOk
        { method := HttpMethod.get, path := "/", query := none, range := none
          origin := some "http://x" }).corsAllowOrigin = none ∧
    (call cfg3 envOk
        { method := HttpMethod.get, path := "/", query := none, range := none
          origin := some "http://x" }).corsAllowCredentials = false := by
  constructor <;> rfl

/-- C1 (amended): for every request that passes admission and is not one of
the two static paths `/` and `/bundle.js`, if CORS is enabled and an Origin
header is present then the response echoes that origin and allows
credentials (whatever the authenticator and handlers answered); with CORS
disabled no response of the service ever carries CORS headers; and the 503
overload response and the static `/` and `/bundle.js` responses never carry
CORS headers — whatever the CORS configuration and even when an Origin
header is present. -/
theorem cors_headers_amended :
    (∀ (cfg : Config) (env : CallEnv) (req : Request) (o : String),
      env.queueSize ≤ cfg.queue_size → req.path ≠ "/" → req.path ≠ "/bundle.js" →
      cfg.cors = true → req.origin = some o →
      (call cfg env req).corsAllowOrigin = some o ∧
      (call cfg env req).corsAllowCredentials = true) ∧
    (∀ (cfg : Config) (env : CallEnv) (req : Request),
      cfg.cors = false →
      (call cfg env req).corsAllowOrigin = none ∧
      (call cfg env req).corsAllowCredentials = false) ∧
    (∀ (cfg : Config) (env : CallEnv) (req : Request),
      cfg.queue_size < env.queueSize →
      (call cfg env req).corsAllowOrigin = none ∧
      (call cfg env req).corsAllowCredentials = false) ∧
    (∀ (cfg : Config) (env : CallEnv) (req : Request),
      env.queueSize ≤ cfg.queue_size →
      (req.path = "/" ∨ req.path = "/bundle.js") →
      (call cfg env req).corsAllowOrigin = none ∧
      (call cfg env req).corsAllowCredentials = false) := by
  refine ⟨?_, ?_, ?_, ?_⟩
  · intro cfg env req o hq hr hb hc ho
    have hnl : ¬ cfg.queue_size < env.queueSize := Nat.not_lt.mpr hq
    simp only [call, if_neg hnl, call_admitted, if_neg hr, if_neg hb, ho, hc]
    cases env.authenticator with
    | none => simp [add_cors_headers]
    | some a =>
      cases a req with
      | ok r2 => simp [add_cors_headers]
      | denied r => simp [add_cors_headers]
  · intro cfg env req hc
    unfold call
    split
    · exact ⟨rfl, rfl⟩
    · unfold call_admitted
      split
      · exact ⟨rfl, rfl⟩
      · split
        · exact ⟨rfl, rfl⟩
        · rw [hc]
          exact ⟨rfl, rfl⟩
  · intro cfg env req h
    have hcall : call cfg env req =
        plainResp { status := 503, body := OVERLOADED_MESSAGE } := by
      simp [call, h]
    rw [hcall]
    exact ⟨rfl, rfl⟩
  · intro cfg env req hq hpath
    have hnl : ¬ cfg.queue_size < env.queueSize := Nat.not_lt.mpr hq
    rcases hpath with h | h
    · have hcall : call cfg env req =
          plainResp (env.render (HandlerCall.sendFileSimple cfg.client_dir
            "index.html" (some APP_STATIC_FILES_CACHE_AGE))) := by
        simp [call, call_admitted, hnl, h]
      rw [hcall]
      exact ⟨rfl, rfl⟩
    · have hcall : call cfg env req =
          plainResp (env.render (HandlerCall.sendFileSimple cfg.client_dir
            "bundle.js" (some APP_STATIC_FILES_CACHE_AGE))) := by
        simp [call, call_admitted, hnl, h]
      rw [hcall]
      exact ⟨rfl, rfl⟩

/-- C1 witness: a non-static request with CORS on echoes its Origin
header; with CORS off a request carrying an Origin header gets no CORS
headers; and with CORS on and an Origin header present, neither the
overloaded 503 response nor the static `/bundle.js` response carries CORS
headers. -/
theorem cors_headers_amended_witness :
    ((call cfg3 envOk
        { method := HttpMethod.get, path := "/collections", query := none
          range := none, origin := some "http://x" }).corsAllowOrigin =
      some "http://x" ∧
    (call cfg3 envOk
        { method := HttpMethod.get, path := "/collections", query := none
          range := none, origin := some "http://x" }).corsAllowCredentials =
      true) ∧
    ((call cfg1 envOk
        { method := HttpMethod.get, path := "/collections", query := none
          range := none, origin := some "http://x" }).corsAllowOrigin = none ∧
    (call cfg1 envOk
        { method := HttpMethod.get, path := "/collections", query := none
          range := none, origin := some "http://x" }).corsAllowCredentials =
      false) ∧
    ((call cfg3 envBusy
        { method := HttpMethod.get, path := "/collections", query := none
          range := none, origin := some "http://x" }).corsAllowOrigin = none ∧
    (call cfg3 envBusy
        { method := HttpMethod.get, path := "/collections", query := none
          range := none, origin := some "http://x" }).corsAllowCredentials =
      false) ∧
    ((call cfg3 envOk
        { method := HttpMethod.get, path := "/bundle.js", query := none
          range := none, origin := some "http://x" }).corsAllowOrigin = none ∧
    (call cfg3 envOk
        { method := HttpMethod.get, path := "/bundle.js", query := none
          range := none, origin := some "http://x" }).corsAllowCredentials =
      false) :=
  ⟨cors_headers_amended.1 cfg3 envOk _ "http://x" (by decide) (by decide)
      (by decide) rfl rfl,
   cors_headers_amended.2.1 cfg1 envOk _ rfl,
   cors_headers_amended.2.2.1 cfg3 envBusy _ (by decide),
   cors_headers_amended.2.2.2 cfg3 envOk _ (by decide) (Or.inr rfl)⟩

/-! ## C2: non-GET methods -/

/-- C2 counterexample: a POST to the static path `/` is served by the
static-file branch (here: the handler's 200 response), not answered with
405, contradicting the claim that every non-GET request gets 405. -/
theorem method_405_counterexample :
    (call cfg3 envOk
        { method := HttpMethod.other "POST", path := "/", query := none
          range := none, origin := none }).status = 200 ∧
    (call cfg3 envOk
        { method := HttpMethod.other "POST", path := "/", query := none
          range := none, origin := none }).status ≠ 405 := by
  constructor
  · rfl
  · decide

/-- C2 (amended): every non-GET request that passes the admission check,
whose path is neither `/` nor `/bundle.js` (those are served as static
files without a method check), and which the authenticator passes through
(or no authenticator is configured), is answered 405 "Method not
supported". -/
theorem method_not_get_405 (cfg : Config) (env : CallEnv) (req : Request)
    (hm : req.method ≠ HttpMethod.get)
    (hq : env.queueSize ≤ cfg.queue_size)
    (hr : req.path ≠ "/") (hb : req.path ≠ "/bundle.js")
    (ha : env.authenticator = none ∨
      ∃ a, env.authenticator = some a ∧ a req = AuthResult.ok req) :
    (call cfg env req).status = 405 ∧
    (call cfg env req).body = "Method not supported" := by
  have hnl : ¬ cfg.queue_size < env.queueSize := Nat.not_lt.mpr hq
  have hproc : process_checked cfg req = PResult.short 405 "Method not supported" := by
    cases h : req.method with
    | get => exact absurd h hm
    | other s => simp [process_checked, h]
  have hcall : call cfg env req =
      add_cors_headers
        (plainResp { status := 405, body := "Method not supported" })
        req.origin cfg.cors := by
    rcases ha with h1 | ⟨a, h2, h3⟩
    · simp [call, call_admitted, hnl, hr, hb, h1, hproc, renderPResult]
    · simp [call, call_admitted, hnl, hr, hb, h2, h3, hproc, renderPResult]
  rw [hcall]
  exact add_cors_headers_fields ..

/-! ## C4: collection-index resolution -/

/-- Routing behaviour of the collection-index resolution on inputs whose
digit run parses: a parsed index `n ≥` the number of base directories
answers 404 immediately, a parsed `n <` that number routes the stripped
remainder (which keeps its leading slash) against base directory `n`, a
path the regex does not match at all is routed whole against base
directory 0, and a leading slash, a nonempty ASCII digit run fitting in
`usize`, a second slash and one further non-newline character always match
with the digits' value.  Unicode-digit and overflowing runs instead panic
(see the C4 theorem). -/
theorem collection_index_resolution (cfg : Config) (req : Request) (p : String)
    (hm : req.method = HttpMethod.get)
    (hp : percentDecodeLossy req.path = p)
    (hc : strStartsWith p "/collections" = false)
    (ht : strStartsWith p "/transcodings" = false) :
    (∀ n rest, collectionMatch p = some (n, rest) →
      (cfg.base_dirs.length ≤ n →
        process_checked cfg req = PResult.short 404 NOT_FOUND_MESSAGE) ∧
      (n < cfg.base_dirs.length →
        process_checked cfg req =
          routeResolved (cfg.base_dirs.getD n "") rest req.query req.range)) ∧
    (collectionCapture p = none →
      process_checked cfg req =
        routeResolved (cfg.base_dirs.getD 0 "") p req.query req.range) ∧
    (∀ ds c tail, p = String.mk ('/' :: ds ++ '/' :: c :: tail) → ds ≠ [] →
      ds.all isDigitChar = true → c ≠ '\n' → digitsToNat ds ≤ USIZE_MAX →
      collectionMatch p = some (digitsToNat ds, String.mk ('/' :: c :: tail))) := by
  refine ⟨?_, ?_, ?_⟩
  · intro n rest hsome
    rw [process_checked_match cfg req p n rest hm hp hsome]
    constructor
    · intro hge
      simp [hge]
    · intro hlt
      simp [Nat.not_le.mpr hlt]
  · intro hnone
    exact process_checked_nomatch cfg req p hm hp hc ht hnone
  · intro ds c tail hpd hne hdig hcnl hbound
    rw [hpd]
    exact collectionMatch_eq_some ds c tail hne hdig hcnl hbound

/-- Concrete instances of `collection_index_resolution`: with three
collections, `GET /2/audio/song.mp3` routes the stripped path
`/audio/song.mp3` against base directory 2 ("dirC"), and
`GET /5/audio/song.mp3` is answered 404. -/
theorem collection_index_resolution_witness :
    process_checked cfg3
        { method := HttpMethod.get, path := "/2/audio/song.mp3", query := none
          range := some (RangeHeader.bytes [ByteRangeSpec.fromTo 0 99])
          origin := none } =
      routeResolved (cfg3.base_dirs.getD 2 "") "/audio/song.mp3" none
        (some (RangeHeader.bytes [ByteRangeSpec.fromTo 0 99])) ∧
    process_checked cfg3
        { method := HttpMethod.get, path := "/5/audio/song.mp3", query := none
          range := none, origin := none } =
      PResult.short 404 NOT_FOUND_MESSAGE ∧
    collectionMatch "/2/audio/song.mp3" =
      some (digitsToNat ['2'], String.mk ('/' :: "audio/song.mp3".data)) :=
  ⟨((collection_index_resolution cfg3 _ "/2/audio/song.mp3" rfl (by decide)
        (by decide) (by decide)).1 2 "/audio/song.mp3" (by decide)).2
      (by decide),
   ((collection_index_resolution cfg3 _ "/5/audio/song.mp3" rfl (by decide)
        (by decide) (by decide)).1 5 "/audio/song.mp3" (by decide)).1
      (by decide),
   (collection_index_resolution cfg3
        { method := HttpMethod.get, path := "/2/audio/song.mp3", query := none
          range := none, origin := none }
        "/2/audio/song.mp3" rfl (by decide) (by decide) (by decide)).2.2
      ['2'] 'a' "udio/song.mp3".data (by decide) (by decide) (by decide)
      (by decide) (by decide)⟩

/-- C4: the collection-index extraction panics on reachable requests — the
regex `\d` is Unicode-aware, so `GET /٤/x` (Arabic-Indic digit four; on the
wire `/%D9%A4/x`, shown here both raw and percent-encoded) matches the
pattern while `parse::<usize>().unwrap()` rejects the non-ASCII digit and
panics, and an ASCII digit run overflowing `usize` (here 2^64) panics
likewise — where the claim promises a 404 or a routed dispatch for every
matched path. -/
theorem collection_parse_panic :
    process_checked cfg1
        { method := HttpMethod.get, path := "/٤/x", query := none
          range := none, origin := none } = PResult.panicked ∧
    process_checked cfg1
        { method := HttpMethod.get, path := "/%D9%A4/x", query := none
          range := none, origin := none } = PResult.panicked ∧
    process_checked cfg3
        { method := HttpMethod.get, path := "/18446744073709551616/x"
          query := none, range := none, origin := none } =
      PResult.panicked := by
  refine ⟨by decide, by decide, by decide⟩

/-! ## C5: `/collections` and `/transcodings` vs. the collection prefix -/

/-- C5 counterexample: with one configured collection, `GET /0/collections`
(a valid collection index followed by `/collections`) is answered 404, not
dispatched to the collections-info handler as the claim states. -/
theorem collections_after_strip_counterexample :
    process_checked cfg1
        { method := HttpMethod.get, path := "/0/collections", query := none
          range := none, origin := none } =
      PResult.short 404 NOT_FOUND_MESSAGE ∧
    process_checked cfg1
        { method := HttpMethod.get, path := "/0/collections", query := none
          range := none, origin := none } ≠
      PResult.handler HandlerCall.collectionsList := by
  constructor
  · decide
  · decide

/-- C5 (amended): the `/collections` and `/transcodings` checks are applied
to the decoded path before the collection prefix is stripped.  A stripped
remainder beginning with `/collections` or `/transcodings` matches no
post-strip route case and yields 404, so `GET /<N>/collections` (or
`/<N>/transcodings`) with a valid index N is answered 404; only unprefixed
paths beginning with `/collections` (resp. `/transcodings`) reach the
info handlers. -/
theorem collections_before_strip_amended :
    (∀ (base p : String) (params : Option (List (String × String)))
        (range : Option RangeHeader),
      strStartsWith p "/collections" = true ∨
        strStartsWith p "/transcodings" = true →
      routeResolved base p params range = PResult.short 404 NOT_FOUND_MESSAGE) ∧
    (∀ (cfg : Config) (req : Request) (p : String) (n : Nat) (rest : String),
      req.method = HttpMethod.get → percentDecodeLossy req.path = p →
      collectionMatch p = some (n, rest) → n < cfg.base_dirs.length →
      (strStartsWith rest "/collections" = true ∨
        strStartsWith rest "/transcodings" = true) →
      process_checked cfg req = PResult.short 404 NOT_FOUND_MESSAGE) ∧
    (∀ (cfg : Config) (req : Request) (p : String),
      req.method = HttpMethod.get → percentDecodeLossy req.path = p →
      strStartsWith p "/collections" = true →
      process_checked cfg req = PResult.handler HandlerCall.collectionsList) ∧
    (∀ (cfg : Config) (req : Request) (p : String),
      req.method = HttpMethod.get → percentDecodeLossy req.path = p →
      strStartsWith p "/collections" = false →
      strStartsWith p "/transcodings" = true →
      process_checked cfg req = PResult.handler HandlerCall.transcodingsList) := by
  have hroute : ∀ (base p : String) (params : Option (List (String × String)))
      (range : Option RangeHeader),
      strStartsWith p "/collections" = true ∨
        strStartsWith p "/transcodings" = true →
      routeResolved base p params range = PResult.short 404 NOT_FOUND_MESSAGE := by
    intro base p params range h
    cases h with
    | inl h => exact routeResolved_collections_404 base p params range h
    | inr h => exact routeResolved_transcodings_404 base p params range h
  refine ⟨hroute, ?_, ?_, ?_⟩
  · intro cfg req p n rest hm hp hsome hlt hrest
    rw [process_checked_match cfg req p n rest hm hp hsome]
    simp only [Nat.not_le.mpr hlt, if_false]
    exact hroute _ _ _ _ hrest
  · intro cfg req p hm hp hcol
    simp [process_checked, hm, hp, hcol]
  · intro cfg req p hm hp hc ht
    simp [process_checked, hm, hp, hc, ht]

/-- C5 (amended) witness: `GET /0/collections` with one collection is 404,
while unprefixed `GET /collections` and `GET /transcodings` reach the info
handlers. -/
theorem collections_before_strip_amended_witness :
    process_checked cfg1
        { method := HttpMethod.get, path := "/0/collections", query := none
          range := none, origin := none } =
      PResult.short 404 NOT_FOUND_MESSAGE ∧
    process_checked cfg1
        { method := HttpMethod.get, path := "/collections", query := none
          range := none, origin := none } =
      PResult.handler HandlerCall.collectionsList ∧
    process_checked cfg1
        { method := HttpMethod.get, path := "/transcodings", query := none
          range := none, origin := none } =
      PResult.handler HandlerCall.transcodingsList :=
  ⟨collections_before_strip_amended.2.1 cfg1 _ "/0/collections" 0 "/collections"
      rfl (by decide) (by decide) (by decide) (Or.inl (by decide)),
   collections_before_strip_amended.2.2.1 cfg1 _ "/collections" rfl (by decide)
      (by decide),
   collections_before_strip_amended.2.2.2 cfg1 _ "/transcodings" rfl (by decide)
      (by decide) (by decide)⟩

/-! ## C6: Range header handling on audio requests -/

/-- An audio path (slash, 'a', ...) matches no collection pattern and
triggers neither pre-strip info route. -/
theorem audio_path_shape {p : String} (h : strStartsWith p "/audio/" = true) :
    collectionCapture p = none ∧
    strStartsWith p "/collections" = false ∧
    strStartsWith p "/transcodings" = false := by
  obtain ⟨t1, h1, h1'⟩ := listStartsWith_cons h
  obtain ⟨t2, h2, _⟩ := listStartsWith_cons h1'
  have hdata : p.data = '/' :: 'a' :: t2 := by rw [h1, h2]
  refine ⟨collectionCapture_none hdata (by decide), ?_, ?_⟩
  · unfold strStartsWith
    rw [hdata]
    exact listStartsWith_second_false _ _ _ _ _ _ (by decide)
  · unfold strStartsWith
    rw [hdata]
    exact listStartsWith_second_false _ _ _ _ _ _ (by decide)

/-- C6 counterexample: a GET audio request with two byte ranges is answered
with the literal message "Do not support muptiple ranges" (sic), not the
"Do not support multiple ranges" the claim states. -/
theorem range_message_counterexample :
    process_checked cfg1
        { method := HttpMethod.get, path := "/audio/a.mp3", query := none
          range := some (RangeHeader.bytes
            [ByteRangeSpec.fromTo 0 50, ByteRangeSpec.fromTo 60 100])
          origin := none } =
      PResult.short 501 "Do not support muptiple ranges" ∧
    process_checked cfg1
        { method := HttpMethod.get, path := "/audio/a.mp3", query := none
          range := some (RangeHeader.bytes
            [ByteRangeSpec.fromTo 0 50, ByteRangeSpec.fromTo 60 100])
          origin := none } ≠
      PResult.short 501 "Do not support multiple ranges" := by
  constructor
  · decide
  · decide

/-- C6 (amended): on every GET audio request — the decoded path either
starts with `/audio/` itself (base directory 0, audio path the whole
decoded path) or carries a valid collection prefix whose stripped remainder
starts with `/audio/` (base directory N, audio path the remainder) — with
at least one base directory configured: no `Range` header streams the file
unrestricted; a bytes header with zero ranges is 400 "One range is
required"; with exactly one range, that range is passed to `send_file`
unchanged; with several ranges, 501 "Do not support muptiple ranges"
(message as in the source, with its typo); a non-bytes unit is answered
501 "Other then bytes ranges are not supported" (ditto). -/
theorem range_header_amended (cfg : Config) (req : Request) (p bd ap : String)
    (hm : req.method = HttpMethod.get)
    (hp : percentDecodeLossy req.path = p)
    (hroute :
      (strStartsWith p "/audio/" = true ∧ bd = cfg.base_dirs.getD 0 "" ∧
        ap = p) ∨
      (∃ n, collectionMatch p = some (n, ap) ∧ n < cfg.base_dirs.length ∧
        strStartsWith ap "/audio/" = true ∧ bd = cfg.base_dirs.getD n ""))
    (_hdirs : 0 < cfg.base_dirs.length) :
    (req.range = none →
      process_checked cfg req = PResult.handler (HandlerCall.sendFile
        bd (getSubpath ap "/audio/") none
        (req.query.bind (fun q => lookupLast q "seek"))
        (req.query.bind (fun q => lookupLast q "trans")))) ∧
    (req.range = some (RangeHeader.bytes []) →
      process_checked cfg req = PResult.short 400 "One range is required") ∧
    (∀ r, req.range = some (RangeHeader.bytes [r]) →
      process_checked cfg req = PResult.handler (HandlerCall.sendFile
        bd (getSubpath ap "/audio/") (some r)
        (req.query.bind (fun q => lookupLast q "seek"))
        (req.query.bind (fun q => lookupLast q "trans")))) ∧
    (∀ r1 r2 rs, req.range = some (RangeHeader.bytes (r1 :: r2 :: rs)) →
      process_checked cfg req =
        PResult.short 501 "Do not support muptiple ranges") ∧
    (∀ u v, req.range = some (RangeHeader.unregistered u v) →
      process_checked cfg req =
        PResult.short 501 "Other then bytes ranges are not supported") := by
  have hkey : strStartsWith ap "/audio/" = true ∧
      process_checked cfg req = routeResolved bd ap req.query req.range := by
    rcases hroute with ⟨haud, hbd, hap⟩ | ⟨n, hsome, hlt, haud, hbd⟩
    · subst hbd
      rw [hap]
      obtain ⟨hcap, hc, ht⟩ := audio_path_shape haud
      exact ⟨haud, process_checked_nomatch cfg req p hm hp hc ht hcap⟩
    · subst hbd
      refine ⟨haud, ?_⟩
      rw [process_checked_match cfg req p n ap hm hp hsome]
      rw [if_neg (Nat.not_le.mpr hlt)]
  obtain ⟨haudio, hbase⟩ := hkey
  refine ⟨?_, ?_, ?_, ?_, ?_⟩
  · intro h
    rw [hbase]
    simp [routeResolved, haudio, h]
  · intro h
    rw [hbase]
    simp [routeResolved, haudio, h]
  · intro r h
    rw [hbase]
    simp [routeResolved, haudio, h]
  · intro r1 r2 rs h
    rw [hbase]
    simp [routeResolved, haudio, h]
  · intro u v h
    rw [hbase]
    simp [routeResolved, haudio, h]

/-- C6 (amended) witness: concrete audio requests exercising the
no-header, single-range and non-bytes cases on an unprefixed path, and the
multi-range case on a collection-prefixed audio path. -/
theorem range_header_amended_witness :
    process_checked cfg1
        { method := HttpMethod.get, path := "/audio/a.mp3", query := none
          range := none, origin := none } =
      PResult.handler (HandlerCall.sendFile (cfg1.base_dirs.getD 0 "")
        (getSubpath "/audio/a.mp3" "/audio/") none none none) ∧
    process_checked cfg1
        { method := HttpMethod.get, path := "/audio/a.mp3", query := none
          range := some (RangeHeader.bytes [ByteRangeSpec.fromTo 0 99])
          origin := none } =
      PResult.handler (HandlerCall.sendFile (cfg1.base_dirs.getD 0 "")
        (getSubpath "/audio/a.mp3" "/audio/")
        (some (ByteRangeSpec.fromTo 0 99)) none none) ∧
    process_checked cfg1
        { method := HttpMethod.get, path := "/audio/a.mp3", query := none
          range := some (RangeHeader.unregistered "seconds" "0-10")
          origin := none } =
      PResult.short 501 "Other then bytes ranges are not supported" ∧
    process_checked cfg3
        { method := HttpMethod.get, path := "/1/audio/x.mp3", query := none
          range := some (RangeHeader.bytes
            [ByteRangeSpec.fromTo 0 50, ByteRangeSpec.fromTo 60 100])
          origin := none } =
      PResult.short 501 "Do not support muptiple ranges" :=
  ⟨(range_header_amended cfg1 _ "/audio/a.mp3" (cfg1.base_dirs.getD 0 "")
      "/audio/a.mp3" rfl (by decide)
      (Or.inl ⟨by decide, rfl, rfl⟩) (by decide)).1 rfl,
   (range_header_amended cfg1 _ "/audio/a.mp3" (cfg1.base_dirs.getD 0 "")
      "/audio/a.mp3" rfl (by decide)
      (Or.inl ⟨by decide, rfl, rfl⟩) (by decide)).2.2.1
      (ByteRangeSpec.fromTo 0 99) rfl,
   (range_header_amended cfg1 _ "/audio/a.mp3" (cfg1.base_dirs.getD 0 "")
      "/audio/a.mp3" rfl (by decide)
      (Or.inl ⟨by decide, rfl, rfl⟩) (by decide)).2.2.2.2 "seconds" "0-10" rfl,
   (range_header_amended cfg3 _ "/1/audio/x.mp3" (cfg3.base_dirs.getD 1 "")
      "/audio/x.mp3" rfl (by decide)
      (Or.inr ⟨1, by decide, by decide, by decide, rfl⟩) (by decide)).2.2.2.1
      (ByteRangeSpec.fromTo 0 50) (ByteRangeSpec.fromTo 60 100) [] rfl⟩

/-- C2 witness: a POST to `/folder/x` without authenticator is answered
405 "Method not supported". -/
theorem method_not_get_405_witness :
    (call cfg3 envOk
        { method := HttpMethod.other "POST", path := "/folder/x", query := none
          range := none, origin := none }).status = 405 ∧
    (call cfg3 envOk
        { method := HttpMethod.other "POST", path := "/folder/x", query := none
          range := none, origin := none }).body = "Method not supported" :=
  method_not_get_405 cfg3 envOk _ (by decide) (by decide) (by decide)
    (by decide) (Or.inl rfl)

/-! ## C7/C10: icon cache behaviour -/

/-- C7: with caching enabled a cache hit returns the cached bytes verbatim
(and writes nothing); on a miss the scaled bytes are returned and written
to the cache whatever the write's outcome (best effort); with caching
disabled the scaled bytes are returned and nothing is written; every
successful response is a 200 with Content-Type image/png and Content-Length
equal to the number of body bytes. -/
theorem icon_response_cache_behaviour :
    (∀ (env : IconEnv) (path : String) (data : List Nat),
      env.cfg.cache_disabled = false →
      env.cached_icon path = some (Except.ok data) →
      icon_response env path =
        { result := Except.ok (iconOk data), cacheWrite := none }) ∧
    (∀ (env : IconEnv) (path : String) (data : List Nat),
      env.cfg.cache_disabled = false → env.cached_icon path = none →
      scale_cover env.img env.cfg path = Except.ok data →
      icon_response env path =
        { result := Except.ok (iconOk data)
          cacheWrite := some (data, env.cache_icon path data) }) ∧
    (∀ (env : IconEnv) (path : String) (data : List Nat),
      env.cfg.cache_disabled = true →
      scale_cover env.img env.cfg path = Except.ok data →
      icon_response env path =
        { result := Except.ok (iconOk data), cacheWrite := none }) ∧
    (∀ (env : IconEnv) (path : String) (resp : IconHttpResponse),
      (icon_response env path).result = Except.ok resp →
      resp.status = 200 ∧ resp.contentTypePng = true ∧
      resp.contentLength = resp.body.length) := by
  refine ⟨?_, ?_, ?_, ?_⟩
  · intro env path data hdis hhit
    simp [icon_response, hdis, hhit]
  · intro env path data hdis hmiss hscale
    simp [icon_response, hdis, hmiss, hscale]
  · intro env path data hdis hscale
    simp [icon_response, hdis, hscale]
  · intro env path resp h
    have hfields : ∀ data : List Nat, resp = iconOk data →
        resp.status = 200 ∧ resp.contentTypePng = true ∧
        resp.contentLength = resp.body.length := by
      intro data he
      rw [he]
      exact ⟨rfl, rfl, rfl⟩
    unfold icon_response at h
    cases hx : (if !env.cfg.cache_disabled then env.cached_icon path else none) with
    | some rr =>
      rw [hx] at h
      cases rr with
      | ok data =>
        simp only at h
        injection h with h'
        exact hfields data h'.symm
      | error e => simp only at h; exact absurd h (by simp)
    | none =>
      rw [hx] at h
      cases hs : scale_cover env.img env.cfg path with
      | ok data =>
        rw [hs] at h
        simp only at h
        injection h with h'
        exact hfields data h'.symm
      | error e => rw [hs] at h; simp only at h; exact absurd h (by simp)

/-- Environment fixture for the icon claims: a 4×4 source image and a PNG
codec modelled as the inverse pair that records the dimensions in front of
the pixel bytes. -/
def imgEnvW : ImgEnv :=
  { imageOpen := fun _ => Except.ok 0
    decode := fun _ => Except.ok { width := 4, height := 4, pix := [7] }
    resample := fun _ _ _ _ => [9]
    pngEncode := fun img => Except.ok (img.width :: img.height :: img.pix)
    pngDecode := fun bs =>
      match bs with
      | w :: h :: pxs => some { width := w, height := h, pix := pxs }
      | _ => none }

/-- Icons configuration fixture: caching on, size 2, quality scaling. -/
def iconCfgW : IconsConfig :=
  { cache_disabled := false, size := 2, fast_scaling := false }

/-- Icon environment with a readable cached thumbnail. -/
def iconEnvHit : IconEnv :=
  { img := imgEnvW, cfg := iconCfgW
    cached_icon := fun _ => some (Except.ok [1, 2, 3])
    cache_icon := fun _ _ => Except.ok () }

/-- Icon environment with a cache miss and a failing cache write. -/
def iconEnvMiss : IconEnv :=
  { img := imgEnvW, cfg := iconCfgW
    cached_icon := fun _ => none
    cache_icon := fun _ _ => Except.error "disk full" }

/-- Icon environment whose cached thumbnail fails to read. -/
def iconEnvBadRead : IconEnv :=
  { img := imgEnvW, cfg := iconCfgW
    cached_icon := fun _ => some (Except.error "read failed")
    cache_icon := fun _ _ => Except.ok () }

/-- C7 witness: a cache hit serves the cached bytes with no write; a miss
serves the freshly scaled bytes and attempts the (failing) cache write
without failing the response; header facts hold on the hit response. -/
theorem icon_response_cache_behaviour_witness :
    icon_response iconEnvHit "cover.jpg" =
      { result := Except.ok (iconOk [1, 2, 3]), cacheWrite := none } ∧
    icon_response iconEnvMiss "cover.jpg" =
      { result := Except.ok (iconOk [2, 2, 9])
        cacheWrite := some ([2, 2, 9], Except.error "disk full") } ∧
    ((iconOk [1, 2, 3]).status = 200 ∧
      (iconOk [1, 2, 3]).contentTypePng = true ∧
      (iconOk [1, 2, 3]).contentLength = (iconOk [1, 2, 3]).body.length) :=
  ⟨icon_response_cache_behaviour.1 iconEnvHit "cover.jpg" [1, 2, 3] rfl rfl,
   icon_response_cache_behaviour.2.1 iconEnvMiss "cover.jpg" [2, 2, 9] rfl rfl
     rfl,
   icon_response_cache_behaviour.2.2.2 iconEnvHit "cover.jpg" (iconOk [1, 2, 3])
     rfl⟩

/-- C10: with caching enabled, a cached thumbnail that exists but fails to
read makes `icon_response` fail with that read error — it does not fall
back to `scale_cover` (the environment is arbitrary, so this holds even
when scaling would succeed), and no cache write happens. -/
theorem icon_cache_read_failure (env : IconEnv) (path : String) (e : String)
    (hdis : env.cfg.cache_disabled = false)
    (hbad : env.cached_icon path = some (Except.error e)) :
    (icon_response env path).result = Except.error e ∧
    (icon_response env path).cacheWrite = none := by
  simp [icon_response, hdis, hbad]

/-- C10 witness: the bad-read environment (whose `scale_cover` would
succeed with bytes [2, 2, 9]) propagates the read error. -/
theorem icon_cache_read_failure_witness :
    (icon_response iconEnvBadRead "cover.jpg").result =
      Except.error "read failed" ∧
    (icon_response iconEnvBadRead "cover.jpg").cacheWrite = none ∧
    scale_cover iconEnvBadRead.img iconEnvBadRead.cfg "cover.jpg" =
      Except.ok [2, 2, 9] :=
  ⟨(icon_cache_read_failure iconEnvBadRead "cover.jpg" "read failed" rfl rfl).1,
   (icon_cache_read_failure iconEnvBadRead "cover.jpg" "read failed" rfl rfl).2,
   rfl⟩

/-! ## C8: scale_cover -/

/-- Rounding a ratio whose value is exact returns that value. -/
theorem roundDiv_self_mul (S W : Nat) (hW : 0 < W) :
    roundDiv (S * W) W = S := by
  unfold roundDiv
  have h1 : 2 * (S * W) + W = W * (2 * S + 1) := by ring
  have h2 : 2 * W = W * 2 := by ring
  rw [h1, h2, Nat.mul_div_mul_left _ _ hW]
  omega

/-- A square image bounded by a square box of side `S ≤ W` scales exactly
to `S × S`. -/
theorem resize_dimensions_square (W S : Nat) (hS : 0 < S) (hW : 0 < W) :
    resize_dimensions W W S S = (S, S) := by
  unfold resize_dimensions
  rw [if_pos (le_refl (S * W)), roundDiv_self_mul S W hW,
    Nat.max_eq_left hS]

/-- A PNG codec pair is lossless when decoding inverts every successful
encoding. -/
def pngLossless (env : ImgEnv) : Prop :=
  ∀ img bs, env.pngEncode img = Except.ok bs → env.pngDecode bs = some img

/-- C8: `scale_cover` of a square `W × W` source under a lossless PNG codec
and a configured size `0 < S ≤ W` produces, when it succeeds, bytes that
decode to an `S × S` image; an open, decode or encode error each makes the
whole operation fail with that error; and the resize filter is Lanczos3
exactly when fast scaling is not configured, Triangle when it is. -/
theorem scale_cover_contract :
    (∀ (env : ImgEnv) (cfg : IconsConfig) (path : String) (r : Nat)
        (img : Image) (bs : List Nat),
      pngLossless env →
      env.imageOpen path = Except.ok r → env.decode r = Except.ok img →
      img.height = img.width → 0 < cfg.size → cfg.size ≤ img.width →
      scale_cover env cfg path = Except.ok bs →
      ∃ img2, env.pngDecode bs = some img2 ∧
        img2.width = cfg.size ∧ img2.height = cfg.size) ∧
    (∀ (env : ImgEnv) (cfg : IconsConfig) (path : String) (e : String),
      env.imageOpen path = Except.error e →
      scale_cover env cfg path = Except.error e) ∧
    (∀ (env : ImgEnv) (cfg : IconsConfig) (path : String) (r : Nat) (e : String),
      env.imageOpen path = Except.ok r → env.decode r = Except.error e →
      scale_cover env cfg path = Except.error e) ∧
    (∀ (env : ImgEnv) (cfg : IconsConfig) (path : String) (r : Nat)
        (img : Image) (e : String),
      env.imageOpen path = Except.ok r → env.decode r = Except.ok img →
      env.pngEncode (envResize env img cfg.size cfg.size
        (if !cfg.fast_scaling then FilterType.lanczos3 else FilterType.triangle)) =
        Except.error e →
      scale_cover env cfg path = Except.error e) ∧
    (∀ (env : ImgEnv) (cfg : IconsConfig) (path : String),
      cfg.fast_scaling = false →
      scale_cover env cfg path =
        (env.imageOpen path).bind (fun r => (env.decode r).bind (fun img =>
          env.pngEncode
            (envResize env img cfg.size cfg.size FilterType.lanczos3)))) ∧
    (∀ (env : ImgEnv) (cfg : IconsConfig) (path : String),
      cfg.fast_scaling = true →
      scale_cover env cfg path =
        (env.imageOpen path).bind (fun r => (env.decode r).bind (fun img =>
          env.pngEncode
            (envResize env img cfg.size cfg.size FilterType.triangle)))) := by
  refine ⟨?_, ?_, ?_, ?_, ?_, ?_⟩
  · intro env cfg path r img bs hloss ho hd hsq hS hle hok
    have hsc : scale_cover env cfg path =
        env.pngEncode (envResize env img cfg.size cfg.size
          (if !cfg.fast_scaling then FilterType.lanczos3
           else FilterType.triangle)) := by
      simp only [scale_cover, ho, hd, bind, Except.bind]
    rw [hsc] at hok
    refine ⟨envResize env img cfg.size cfg.size
      (if !cfg.fast_scaling then FilterType.lanczos3 else FilterType.triangle),
      hloss _ _ hok, ?_, ?_⟩
    · show (envResize ..).width = cfg.size
      simp only [envResize, hsq,
        resize_dimensions_square img.width cfg.size hS
          (Nat.lt_of_lt_of_le hS hle)]
    · show (envResize ..).height = cfg.size
      simp only [envResize, hsq,
        resize_dimensions_square img.width cfg.size hS
          (Nat.lt_of_lt_of_le hS hle)]
  · intro env cfg path e ho
    simp only [scale_cover, ho, bind, Except.bind]
  · intro env cfg path r e ho hd
    simp only [scale_cover, ho, hd, bind, Except.bind]
  · intro env cfg path r img e ho hd he
    simp only [scale_cover, ho, hd, he, bind, Except.bind]
  · intro env cfg path hf
    simp only [scale_cover, hf, Bool.not_false, if_true, bind]
  · intro env cfg path hf
    simp only [scale_cover, hf, Bool.not_true, Bool.false_eq_true, if_false,
      bind]

/-- C8 witness: the fixture environment (4×4 source, size 2) succeeds with
bytes decoding to a 2×2 image; its codec is lossless. -/
theorem scale_cover_contract_witness :
    ∃ img2, imgEnvW.pngDecode [2, 2, 9] = some img2 ∧
      img2.width = iconCfgW.size ∧ img2.height = iconCfgW.size :=
  scale_cover_contract.1 imgEnvW iconCfgW "cover.jpg" 0
    { width := 4, height := 4, pix := [7] } [2, 2, 9]
    (fun img bs h => by injection h with h'; rw [← h']; rfl)
    rfl rfl rfl (by decide) (by decide) rfl

/-! ## C9: transcoding slot counter -/

/-- C9: along every legal interleaving of guarded acquire/release events
the counter stays within `0 ≤ c ≤ max_transcodings`; the final counter
differs from the initial one exactly by acquires minus releases, so any
balanced segment — in particular a completed transcode request, which
acquires once and releases exactly once on every exit path — restores the
counter to its pre-request value. -/
theorem transcoding_slot_invariant :
    (∀ (maxT c c' : Nat) (tr : List TEvent),
      Steps maxT c tr c' → c ≤ maxT → c' ≤ maxT) ∧
    (∀ (maxT c c' : Nat) (tr : List TEvent),
      Steps maxT c tr c' →
      c' + countRelease tr = c + countAcquire tr) ∧
    (∀ (maxT c c' : Nat) (tr : List TEvent),
      Steps maxT c tr c' → countAcquire tr = countRelease tr → c' = c) := by
  have h1 : ∀ (maxT c c' : Nat) (tr : List TEvent),
      Steps maxT c tr c' → c ≤ maxT → c' ≤ maxT := by
    intro maxT c c' tr h
    induction h with
    | nil _ => exact fun hc => hc
    | acquire hlt htr ih => exact fun _ => ih hlt
    | release hpos htr ih =>
      exact fun hc => ih (Nat.le_trans (Nat.sub_le ..) hc)
  have h2 : ∀ (maxT c c' : Nat) (tr : List TEvent),
      Steps maxT c tr c' →
      c' + countRelease tr = c + countAcquire tr := by
    intro maxT c c' tr h
    induction h with
    | nil _ => simp [countAcquire, countRelease]
    | acquire hlt htr ih =>
      simp only [countAcquire, countRelease, List.countP_cons] at ih ⊢
      simp only [decide_eq_true_eq] at ih ⊢
      simp at ih ⊢
      omega
    | release hpos htr ih =>
      simp only [countAcquire, countRelease, List.countP_cons] at ih ⊢
      simp only [decide_eq_true_eq] at ih ⊢
      simp at ih ⊢
      omega
  refine ⟨h1, h2, ?_⟩
  intro maxT c c' tr h hbal
  have := h2 maxT c c' tr h
  omega

/-- C9 witness: a request that acquires and then releases on a counter at 1
(limit 2) keeps the bound and restores the counter. -/
theorem transcoding_slot_invariant_witness :
    countAcquire [TEvent.acquire, TEvent.release] =
      countRelease [TEvent.acquire, TEvent.release] ∧
    (1 : Nat) ≤ 2 ∧ (1 : Nat) = 1 := by
  have hs : Steps 2 1 [TEvent.acquire, TEvent.release] 1 :=
    Steps.acquire (by decide) (Steps.release (by decide) (Steps.nil 1))
  exact ⟨by decide,
    transcoding_slot_invariant.1 2 1 1 _ hs (by decide),
    transcoding_slot_invariant.2.2 2 1 1 _ hs (by decide)⟩

end Audioserve
